import Mathlib

/-!
Shallow embedding of AzGit (`cmd/azgit/main.go`), a CLI that manages named
Git identity profiles stored in an ini file at `<home>/.config/azgit/config.ini`.

The program has two operations:
* `initializeAzGitConfig` (bootstrap): if the store file does not exist,
  create the containing directory, read `<home>/.gitconfig`, and write a new
  store with a single `default` section seeded from `user.name`, `user.email`,
  `user.signingkey` and `commit.gpgsign`.
* `listIdentities` (the `list` subcommand): load the store and print every
  section whose `name` or `email` key is non-empty as a formatted block.

The ini library (`gopkg.in/ini.v1`) is modelled by `IniFile` / `IniSection`:
an ini file is an ordered list of sections, each an ordered list of
key/value pairs. `File.Section(name)` returns the named section or a fresh
empty one; `Section.Key(k).String()` returns the value or the empty string;
`File.Sections()` returns all sections in declaration order, the unnamed
global section (named `DEFAULT` by the library) included; `ini.Empty()` is a
file holding just an empty `DEFAULT` section; serialization (`SaveTo`) writes
the `DEFAULT` section's keys without a header, so an empty `DEFAULT` section
contributes no bytes to the file on disk.

The filesystem is modelled by a `World` record holding the state of the three
paths the program touches plus two environment flags for directory-creation
and save failures. `os.Stat` results are modelled by `StatResult`
(`os.IsNotExist` is true exactly for `errNotExist`), and Go errors by the
inductive `Err`, whose `wrap` constructor models `fmt.Errorf` with `%w`.
-/

namespace AzGit

/-- Source constant `azgitFolderName`. -/
def azgitFolderName : String := ".config/azgit"

/-- Source constant `azgitConfigFileName`. -/
def azgitConfigFileName : String := "config.ini"

/-- Source `getAzgitConfigPath`, relative to the user home directory. -/
def getAzgitConfigPath : String := azgitFolderName ++ "/" ++ azgitConfigFileName

/-- Path of the Git global config read by `fetchDefaultGitIdentity`. -/
def gitConfigPath : String := ".gitconfig"

/-- Source struct `GitIdentity`. -/
structure GitIdentity where
  name : String
  email : String
  signingKey : String
  gpgSign : String
  deriving DecidableEq, Repr

/-- One ini section: a name and its key/value pairs in declaration order. -/
structure IniSection where
  name : String
  keys : List (String × String)
  deriving DecidableEq, Repr

/-- An ini file: its sections in declaration order (the library's unnamed
global section, named `DEFAULT`, is one of them when present). -/
structure IniFile where
  sections : List IniSection
  deriving DecidableEq, Repr

/-- First value bound to `key`, or the empty string: models
`Section.Key(key).String()`, which yields `""` for an absent key. -/
def lookupKey : List (String × String) → String → String
  | [], _ => ""
  | (k, v) :: rest, key => if k = key then v else lookupKey rest key

/-- Models `section.Key(key).String()`. -/
def IniSection.getKey (s : IniSection) (key : String) : String :=
  lookupKey s.keys key

/-- First section with the given name, if any. -/
def findSection : List IniSection → String → Option IniSection
  | [], _ => none
  | s :: rest, n => if s.name = n then some s else findSection rest n

/-- Models `File.Section(n)`: the named section, or a fresh empty one when
the file has no such section (the library auto-creates it). -/
def IniFile.getSection (f : IniFile) (n : String) : IniSection :=
  match findSection f.sections n with
  | some s => s
  | none => ⟨n, []⟩

/-- Models `ini.Empty()`: a file holding just the empty `DEFAULT` section. -/
def IniFile.empty : IniFile := ⟨[⟨"DEFAULT", []⟩]⟩

/-- Models `section.NewKey(k, v)` on a section built from scratch: the pair
is appended in call order. -/
def IniSection.newKey (s : IniSection) (k v : String) : IniSection :=
  ⟨s.name, s.keys ++ [(k, v)]⟩

/-- Sections as serialized by `SaveTo`: the library writes the `DEFAULT`
section's keys without a header, so an empty `DEFAULT` section contributes
nothing to the file on disk; every other section appears as written. -/
def sectionsOnDisk (f : IniFile) : List IniSection :=
  f.sections.filter (fun s => !(s.name == "DEFAULT" && s.keys.isEmpty))

/-- Go errors as the program distinguishes them. `wrap msg e` models
`fmt.Errorf(msg + ": %w", e)`. -/
inductive Err where
  | notExist (path : String)
  | readFail (path : String)
  | parseFail (path : String)
  | mkdirFail (path : String)
  | saveFail (path : String)
  | wrap (msg : String) (cause : Err)
  deriving DecidableEq, Repr

/-- State of one file path. `statError` is a path whose `os.Stat` fails with
an error other than not-exist (for example a permission error on a parent
directory); `unreadable` stats fine but cannot be read; `malformed` reads
but does not parse as ini. -/
inductive FileState where
  | absent
  | statError
  | unreadable
  | malformed
  | iniData (f : IniFile)
  deriving DecidableEq, Repr

/-- State of one directory path. -/
inductive DirState where
  | absent
  | statError
  | present
  deriving DecidableEq, Repr

/-- Result of `os.Stat`. -/
inductive StatResult where
  | ok
  | errNotExist
  | errOther
  deriving DecidableEq, Repr

def statFile : FileState → StatResult
  | .absent => .errNotExist
  | .statError => .errOther
  | .unreadable => .ok
  | .malformed => .ok
  | .iniData _ => .ok

def statDir : DirState → StatResult
  | .absent => .errNotExist
  | .statError => .errOther
  | .present => .ok

/-- Models `os.IsNotExist` applied to the (possibly nil) error of `os.Stat`. -/
def isNotExist : StatResult → Bool
  | .errNotExist => true
  | _ => false

/-- Models `ini.Load path` on a file in the given state. -/
def loadIni (path : String) : FileState → Except Err IniFile
  | .absent => .error (.notExist path)
  | .statError => .error (.readFail path)
  | .unreadable => .error (.readFail path)
  | .malformed => .error (.parseFail path)
  | .iniData f => .ok f

/-- The filesystem state the program touches, all paths relative to the user
home directory, plus environment flags: `mkdirFails` makes `os.MkdirAll`
fail, `saveFails` makes `File.SaveTo` fail. -/
structure World where
  storeFile : FileState
  storeDir : DirState
  gitconfig : FileState
  mkdirFails : Bool
  saveFails : Bool
  deriving DecidableEq, Repr

/-- Source `ensureAzGitFolderExists`: stat the azgit directory; only when the
stat error is not-exist, `MkdirAll` it; any other stat outcome returns nil
without touching the filesystem. -/
def ensureAzGitFolderExists (w : World) : World × Option Err :=
  if isNotExist (statDir w.storeDir) then
    if w.mkdirFails then (w, some (.mkdirFail azgitFolderName))
    else ({ w with storeDir := .present }, none)
  else (w, none)

/-- Pure part of `fetchDefaultGitIdentity`: the `GitIdentity` literal built
from a successfully loaded `~/.gitconfig`. -/
def derivedIdentity (gitCfg : IniFile) : GitIdentity where
  name := (gitCfg.getSection "user").getKey "name"
  email := (gitCfg.getSection "user").getKey "email"
  signingKey := (gitCfg.getSection "user").getKey "signingkey"
  gpgSign := (gitCfg.getSection "commit").getKey "gpgsign"

/-- Source `fetchDefaultGitIdentity`: load `~/.gitconfig`; on failure wrap
the cause in `failed to read ~/.gitconfig`; on success extract the four
identity fields. -/
def fetchDefaultGitIdentity (w : World) : Except Err GitIdentity :=
  match loadIni gitConfigPath w.gitconfig with
  | .error e => .error (.wrap "failed to read ~/.gitconfig" e)
  | .ok gitCfg => .ok (derivedIdentity gitCfg)

/-- Source `initializeAzGitConfig` lines 95-102: the `default` section as
built by the four `NewKey` calls — `name` and `email` unconditionally,
`signingkey` and `gpgsign` only when non-empty. -/
def buildDefaultSection (identity : GitIdentity) : IniSection :=
  let s0 : IniSection := ⟨"default", []⟩
  let s1 := s0.newKey "name" identity.name
  let s2 := s1.newKey "email" identity.email
  let s3 := if identity.signingKey ≠ "" then s2.newKey "signingkey" identity.signingKey else s2
  if identity.gpgSign ≠ "" then s3.newKey "gpgsign" identity.gpgSign else s3

/-- The whole ini file bootstrap saves: `ini.Empty()` plus the new `default`
section appended by `NewSection` (`NewSection` only errors on an empty
section name, so the source's error branch is unreachable for `"default"`). -/
def bootstrapStore (identity : GitIdentity) : IniFile :=
  ⟨IniFile.empty.sections ++ [buildDefaultSection identity]⟩

/-- Source `initializeAzGitConfig`: return nil when the store file's stat
error is anything but not-exist; otherwise ensure the directory, fetch the
default identity (returning its error unwrapped), build the new store and
save it. The pair is the final filesystem state and the returned error, if
any. A failed save may leave a partial file behind (the source does not
guard against this), modelled as a malformed store file. -/
def initializeAzGitConfig (w : World) : World × Option Err :=
  if !(isNotExist (statFile w.storeFile)) then (w, none)
  else
    match ensureAzGitFolderExists w with
    | (w1, some e) => (w1, some (.wrap "failed to ensure azgit config directory exists" e))
    | (w1, none) =>
      match fetchDefaultGitIdentity w1 with
      | .error e => (w1, some e)
      | .ok identity =>
        if w1.saveFails then ({ w1 with storeFile := .malformed }, some (.saveFail getAzgitConfigPath))
        else ({ w1 with storeFile := .iniData (bootstrapStore identity) }, none)

/-- One formatted identity block, exactly as `listIdentities` builds
`identityInfo` with `fmt.Sprintf`: leading blank line, header naming the
section, `Name:` and `Email:` lines always, `Signing Key:` and `GPG Sign:`
lines only when non-empty. -/
def identityBlock (s : IniSection) : String :=
  let name := s.getKey "name"
  let email := s.getKey "email"
  let signingKey := s.getKey "signingkey"
  let gpgSign := s.getKey "gpgsign"
  let info := "\nIdentity [" ++ s.name ++ "]:\n"
  let info := info ++ "\tName: " ++ name ++ "\n"
  let info := info ++ "\tEmail: " ++ email ++ "\n"
  let info := if signingKey ≠ "" then info ++ "\tSigning Key: " ++ signingKey ++ "\n" else info
  if gpgSign ≠ "" then info ++ "\tGPG Sign: " ++ gpgSign ++ "\n" else info

/-- The section loop of `listIdentities`: skip a section whose `name` and
`email` keys are both empty, otherwise print its block with `fmt.Println`
(which appends one newline). -/
def listBlocks : List IniSection → String
  | [] => ""
  | s :: rest =>
    if s.getKey "name" == "" && s.getKey "email" == "" then listBlocks rest
    else identityBlock s ++ "\n" ++ listBlocks rest

/-- Everything `listIdentities` prints once the store loaded: the
`List of Identities:` header line, then the blocks. -/
def listOutput (cfg : IniFile) : String :=
  "List of Identities:\n" ++ listBlocks cfg.sections

/-- Source `listIdentities`: load the store from the fixed path (wrapping a
failure in `failed to read azgit config`), then print the header and the
blocks. The result is the full standard output on success. -/
def listIdentities (w : World) : Except Err String :=
  match loadIni getAzgitConfigPath w.storeFile with
  | .error e => .error (.wrap "failed to read azgit config" e)
  | .ok cfg => .ok (listOutput cfg)

/-- The spec's display rule, stated on one section: displayed when at least
one of `name`, `email` is non-empty. Used to relate the loop to the spec's
iterate-filter-emit description. -/
def displayedSection (s : IniSection) : Bool :=
  !(s.getKey "name" == "" && s.getKey "email" == "")

/-! Concrete worlds used by witnesses and counterexamples. -/

/-- A `~/.gitconfig` holding only `user.name` and `user.email` (the spec's
Alice scenario). -/
def gitcfgAlice : IniFile :=
  ⟨[⟨"DEFAULT", []⟩, ⟨"user", [("name", "Alice"), ("email", "alice@example.com")]⟩]⟩

/-- A first-run world: no store, no store directory, Alice's gitconfig. -/
def freshWorld : World where
  storeFile := FileState.absent
  storeDir := DirState.absent
  gitconfig := FileState.iniData gitcfgAlice
  mkdirFails := false
  saveFails := false

/-- The store holding exactly the bootstrapped Alice identity, as parsed
back from disk: the global section first, then `default`. -/
def scenarioStore : IniFile :=
  ⟨[⟨"DEFAULT", []⟩, ⟨"default", [("name", "Alice"), ("email", "alice@example.com")]⟩]⟩

/-- A world whose store holds exactly the bootstrapped Alice identity. -/
def scenarioWorld : World where
  storeFile := FileState.iniData scenarioStore
  storeDir := DirState.present
  gitconfig := FileState.absent
  mkdirFails := false
  saveFails := false

/-- A world whose store file exists but does not parse as ini. -/
def malformedStoreWorld : World where
  storeFile := FileState.malformed
  storeDir := DirState.present
  gitconfig := FileState.absent
  mkdirFails := false
  saveFails := false

/-- A world where stat on the store file and on the store directory both
fail with a non-not-exist error. -/
def statErrorWorld : World where
  storeFile := FileState.statError
  storeDir := DirState.statError
  gitconfig := FileState.absent
  mkdirFails := false
  saveFails := false

/-! Helper lemmas. -/

/-- A key bound nowhere in the list reads as the empty string. -/
lemma lookupKey_eq_empty_of_not_mem (l : List (String × String)) (key : String)
    (h : ∀ p ∈ l, p.1 ≠ key) : lookupKey l key = "" := by
  induction l with
  | nil => rfl
  | cons p rest ih =>
    have hp : p.1 ≠ key := h p (by simp)
    cases p with
    | mk k v =>
      simp only [lookupKey, if_neg hp]
      exact ih fun q hq => h q (by simp [hq])

/-- The `default` section built by bootstrap, as an explicit key list. -/
lemma buildDefaultSection_eq (identity : GitIdentity) :
    buildDefaultSection identity =
      ⟨"default",
        [("name", identity.name), ("email", identity.email)] ++
          (if identity.signingKey = "" then [] else [("signingkey", identity.signingKey)]) ++
          (if identity.gpgSign = "" then [] else [("gpgsign", identity.gpgSign)])⟩ := by
  by_cases h1 : identity.signingKey = "" <;> by_cases h2 : identity.gpgSign = "" <;>
    simp [buildDefaultSection, IniSection.newKey, h1, h2]

lemma buildDefaultSection_name (identity : GitIdentity) :
    (buildDefaultSection identity).name = "default" := by
  rw [buildDefaultSection_eq]

lemma buildDefaultSection_getKey_name (identity : GitIdentity) :
    (buildDefaultSection identity).getKey "name" = identity.name := by
  by_cases h1 : identity.signingKey = "" <;> by_cases h2 : identity.gpgSign = "" <;>
    simp [buildDefaultSection, IniSection.newKey, IniSection.getKey, lookupKey, h1, h2]

lemma buildDefaultSection_getKey_email (identity : GitIdentity) :
    (buildDefaultSection identity).getKey "email" = identity.email := by
  by_cases h1 : identity.signingKey = "" <;> by_cases h2 : identity.gpgSign = "" <;>
    simp [buildDefaultSection, IniSection.newKey, IniSection.getKey, lookupKey, h1, h2]

lemma buildDefaultSection_getKey_signingkey (identity : GitIdentity) :
    (buildDefaultSection identity).getKey "signingkey" = identity.signingKey := by
  by_cases h1 : identity.signingKey = "" <;> by_cases h2 : identity.gpgSign = "" <;>
    simp [buildDefaultSection, IniSection.newKey, IniSection.getKey, lookupKey, h1, h2]

lemma buildDefaultSection_getKey_gpgsign (identity : GitIdentity) :
    (buildDefaultSection identity).getKey "gpgsign" = identity.gpgSign := by
  by_cases h1 : identity.signingKey = "" <;> by_cases h2 : identity.gpgSign = "" <;>
    simp [buildDefaultSection, IniSection.newKey, IniSection.getKey, lookupKey, h1, h2]

/-- On disk, the bootstrapped store is exactly the `default` section: the
empty `DEFAULT` section of `ini.Empty()` serializes to nothing. -/
lemma sectionsOnDisk_bootstrapStore (identity : GitIdentity) :
    sectionsOnDisk (bootstrapStore identity) = [buildDefaultSection identity] := by
  have hname := buildDefaultSection_name identity
  simp [sectionsOnDisk, bootstrapStore, IniFile.empty, hname]

/-- Running bootstrap on a world with no store file, a parsable gitconfig
and a cooperating filesystem succeeds and writes the bootstrapped store. -/
lemma initializeAzGitConfig_fresh (w : World) (g : IniFile)
    (h1 : w.storeFile = FileState.absent) (h2 : w.gitconfig = FileState.iniData g)
    (hmk : w.mkdirFails = false) (hsv : w.saveFails = false) :
    ∃ w' : World,
      initializeAzGitConfig w = (w', none) ∧
      w'.storeFile = FileState.iniData (bootstrapStore (derivedIdentity g)) := by
  unfold initializeAzGitConfig ensureAzGitFolderExists fetchDefaultGitIdentity
  cases hd : w.storeDir <;>
    simp [h1, h2, hmk, hsv, hd, statFile, statDir, isNotExist, loadIni]

/-- A store whose sections all lack `name` and `email` produces no blocks. -/
lemma listBlocks_eq_empty (l : List IniSection)
    (h : ∀ s ∈ l, s.getKey "name" = "" ∧ s.getKey "email" = "") :
    listBlocks l = "" := by
  induction l with
  | nil => rfl
  | cons s rest ih =>
    have hs := h s (by simp)
    simp [listBlocks, hs.1, hs.2, ih fun t ht => h t (by simp [ht])]

lemma String_foldl_append (l : List String) : ∀ init : String,
    l.foldl (fun r s => r ++ s) init = init ++ l.foldl (fun r s => r ++ s) "" := by
  induction l with
  | nil => intro init; simp
  | cons a l ih =>
    intro init
    simp only [List.foldl]
    rw [ih (init ++ a), ih ("" ++ a), String.empty_append, String.append_assoc]

lemma String_join_cons (a : String) (l : List String) :
    String.join (a :: l) = a ++ String.join l := by
  simp only [String.join, List.foldl]
  rw [String_foldl_append l ("" ++ a), String.empty_append]

lemma buildDefaultSection_mem_name (identity : GitIdentity) :
    ("name", identity.name) ∈ (buildDefaultSection identity).keys := by
  rw [buildDefaultSection_eq]
  simp

lemma buildDefaultSection_mem_email (identity : GitIdentity) :
    ("email", identity.email) ∈ (buildDefaultSection identity).keys := by
  rw [buildDefaultSection_eq]
  simp

lemma buildDefaultSection_mem_signingkey (identity : GitIdentity)
    (h : identity.signingKey ≠ "") :
    ("signingkey", identity.signingKey) ∈ (buildDefaultSection identity).keys := by
  rw [buildDefaultSection_eq]
  simp [h]

lemma buildDefaultSection_not_mem_signingkey (identity : GitIdentity)
    (h : identity.signingKey = "") (v : String) :
    ("signingkey", v) ∉ (buildDefaultSection identity).keys := by
  rw [buildDefaultSection_eq]
  by_cases h2 : identity.gpgSign = "" <;> simp [h, h2]

lemma buildDefaultSection_mem_gpgsign (identity : GitIdentity)
    (h : identity.gpgSign ≠ "") :
    ("gpgsign", identity.gpgSign) ∈ (buildDefaultSection identity).keys := by
  rw [buildDefaultSection_eq]
  by_cases h1 : identity.signingKey = "" <;> simp [h, h1]

lemma buildDefaultSection_not_mem_gpgsign (identity : GitIdentity)
    (h : identity.gpgSign = "") (v : String) :
    ("gpgsign", v) ∉ (buildDefaultSection identity).keys := by
  rw [buildDefaultSection_eq]
  by_cases h1 : identity.signingKey = "" <;> simp [h, h1]

/-! Claim theorems. -/

/-- C1: for every home directory where no config store file exists and the
Git global config is readable, invoking `initializeAzGitConfig` once creates
a store whose on-disk content is exactly one section named `default`, whose
`name` and `email` keys equal the gitconfig's `user.name` and `user.email`,
with `signingkey` derived from `user.signingkey` and `gpgsign` derived from
`commit.gpgsign`. -/
theorem bootstrap_creates_default_identity (w : World) (g : IniFile)
    (h1 : w.storeFile = FileState.absent) (h2 : w.gitconfig = FileState.iniData g)
    (hmk : w.mkdirFails = false) (hsv : w.saveFails = false) :
    ∃ (w' : World) (f : IniFile) (s : IniSection),
      initializeAzGitConfig w = (w', none) ∧
      w'.storeFile = FileState.iniData f ∧
      sectionsOnDisk f = [s] ∧
      s.name = "default" ∧
      s.getKey "name" = (g.getSection "user").getKey "name" ∧
      s.getKey "email" = (g.getSection "user").getKey "email" ∧
      s.getKey "signingkey" = (g.getSection "user").getKey "signingkey" ∧
      s.getKey "gpgsign" = (g.getSection "commit").getKey "gpgsign" := by
  obtain ⟨w', hw, hf⟩ := initializeAzGitConfig_fresh w g h1 h2 hmk hsv
  exact ⟨w', bootstrapStore (derivedIdentity g), buildDefaultSection (derivedIdentity g),
    hw, hf, sectionsOnDisk_bootstrapStore _, buildDefaultSection_name _,
    buildDefaultSection_getKey_name _, buildDefaultSection_getKey_email _,
    buildDefaultSection_getKey_signingkey _, buildDefaultSection_getKey_gpgsign _⟩

/-- C1 witness: the theorem at the Alice first-run world. -/
theorem bootstrap_creates_default_identity_witness :
    freshWorld.storeFile = FileState.absent ∧
    freshWorld.gitconfig = FileState.iniData gitcfgAlice ∧
    freshWorld.mkdirFails = false ∧
    freshWorld.saveFails = false ∧
    (∃ (w' : World) (f : IniFile) (s : IniSection),
      initializeAzGitConfig freshWorld = (w', none) ∧
      w'.storeFile = FileState.iniData f ∧
      sectionsOnDisk f = [s] ∧
      s.name = "default" ∧
      s.getKey "name" = (gitcfgAlice.getSection "user").getKey "name" ∧
      s.getKey "email" = (gitcfgAlice.getSection "user").getKey "email" ∧
      s.getKey "signingkey" = (gitcfgAlice.getSection "user").getKey "signingkey" ∧
      s.getKey "gpgsign" = (gitcfgAlice.getSection "commit").getKey "gpgsign") :=
  ⟨rfl, rfl, rfl, rfl,
    bootstrap_creates_default_identity freshWorld gitcfgAlice rfl rfl rfl rfl⟩

/-- C3: during bootstrap the new `default` section always receives `name`
and `email` keys, even when the derived values are empty, while `signingkey`
and `gpgsign` are written only when the derived value is non-empty and are
omitted entirely (not present as an empty string) otherwise. -/
theorem bootstrap_optional_keys_asymmetry (w : World) (g : IniFile)
    (h1 : w.storeFile = FileState.absent) (h2 : w.gitconfig = FileState.iniData g)
    (hmk : w.mkdirFails = false) (hsv : w.saveFails = false) :
    ∃ (w' : World) (f : IniFile) (s : IniSection),
      initializeAzGitConfig w = (w', none) ∧
      w'.storeFile = FileState.iniData f ∧
      sectionsOnDisk f = [s] ∧
      ("name", (g.getSection "user").getKey "name") ∈ s.keys ∧
      ("email", (g.getSection "user").getKey "email") ∈ s.keys ∧
      ((g.getSection "user").getKey "signingkey" ≠ "" →
        ("signingkey", (g.getSection "user").getKey "signingkey") ∈ s.keys) ∧
      ((g.getSection "user").getKey "signingkey" = "" →
        ∀ v, ("signingkey", v) ∉ s.keys) ∧
      ((g.getSection "commit").getKey "gpgsign" ≠ "" →
        ("gpgsign", (g.getSection "commit").getKey "gpgsign") ∈ s.keys) ∧
      ((g.getSection "commit").getKey "gpgsign" = "" →
        ∀ v, ("gpgsign", v) ∉ s.keys) := by
  obtain ⟨w', hw, hf⟩ := initializeAzGitConfig_fresh w g h1 h2 hmk hsv
  exact ⟨w', bootstrapStore (derivedIdentity g), buildDefaultSection (derivedIdentity g),
    hw, hf, sectionsOnDisk_bootstrapStore _,
    buildDefaultSection_mem_name _, buildDefaultSection_mem_email _,
    fun h => buildDefaultSection_mem_signingkey _ h,
    fun h => buildDefaultSection_not_mem_signingkey _ h,
    fun h => buildDefaultSection_mem_gpgsign _ h,
    fun h => buildDefaultSection_not_mem_gpgsign _ h⟩

/-- C3 witness: the theorem at the Alice first-run world, whose gitconfig
has an empty `signingkey` and `gpgsign`. -/
theorem bootstrap_optional_keys_asymmetry_witness :
    freshWorld.storeFile = FileState.absent ∧
    freshWorld.gitconfig = FileState.iniData gitcfgAlice ∧
    freshWorld.mkdirFails = false ∧
    freshWorld.saveFails = false ∧
    (∃ (w' : World) (f : IniFile) (s : IniSection),
      initializeAzGitConfig freshWorld = (w', none) ∧
      w'.storeFile = FileState.iniData f ∧
      sectionsOnDisk f = [s] ∧
      ("name", (gitcfgAlice.getSection "user").getKey "name") ∈ s.keys ∧
      ("email", (gitcfgAlice.getSection "user").getKey "email") ∈ s.keys ∧
      ((gitcfgAlice.getSection "user").getKey "signingkey" ≠ "" →
        ("signingkey", (gitcfgAlice.getSection "user").getKey "signingkey") ∈ s.keys) ∧
      ((gitcfgAlice.getSection "user").getKey "signingkey" = "" →
        ∀ v, ("signingkey", v) ∉ s.keys) ∧
      ((gitcfgAlice.getSection "commit").getKey "gpgsign" ≠ "" →
        ("gpgsign", (gitcfgAlice.getSection "commit").getKey "gpgsign") ∈ s.keys) ∧
      ((gitcfgAlice.getSection "commit").getKey "gpgsign" = "" →
        ∀ v, ("gpgsign", v) ∉ s.keys)) :=
  ⟨rfl, rfl, rfl, rfl,
    bootstrap_optional_keys_asymmetry freshWorld gitcfgAlice rfl rfl rfl rfl⟩

/-- C4: when the config store file already exists, `initializeAzGitConfig`
returns successfully with no side effects, so a second invocation leaves the
store file byte-identical. -/
theorem bootstrap_noop_when_store_exists (w : World)
    (h : statFile w.storeFile = StatResult.ok) :
    initializeAzGitConfig w = (w, none) ∧
    initializeAzGitConfig (initializeAzGitConfig w).1 = (w, none) := by
  have hone : initializeAzGitConfig w = (w, none) := by
    unfold initializeAzGitConfig
    simp [h, isNotExist]
  refine ⟨hone, ?_⟩
  rw [hone]
  exact hone

/-- C4 witness: the theorem at a world whose store already holds Alice. -/
theorem bootstrap_noop_when_store_exists_witness :
    statFile scenarioWorld.storeFile = StatResult.ok ∧
    (initializeAzGitConfig scenarioWorld = (scenarioWorld, none) ∧
      initializeAzGitConfig (initializeAzGitConfig scenarioWorld).1 =
        (scenarioWorld, none)) :=
  ⟨rfl, bootstrap_noop_when_store_exists scenarioWorld rfl⟩

/-- C9: when stat on the store file fails with an error other than
not-exist, bootstrap treats the store as existing and returns success with
no side effects; the directory check in `ensureAzGitFolderExists` silently
succeeds the same way. -/
theorem stat_error_treated_as_existing (w w2 : World)
    (h : w.storeFile = FileState.statError) (h2 : w2.storeDir = DirState.statError) :
    initializeAzGitConfig w = (w, none) ∧
    ensureAzGitFolderExists w2 = (w2, none) := by
  constructor
  · unfold initializeAzGitConfig
    simp [h, statFile, isNotExist]
  · unfold ensureAzGitFolderExists
    simp [h2, statDir, isNotExist]

/-- C9 witness: the theorem at a world where both stats fail. -/
theorem stat_error_treated_as_existing_witness :
    statErrorWorld.storeFile = FileState.statError ∧
    statErrorWorld.storeDir = DirState.statError ∧
    (initializeAzGitConfig statErrorWorld = (statErrorWorld, none) ∧
      ensureAzGitFolderExists statErrorWorld = (statErrorWorld, none)) :=
  ⟨rfl, rfl, stat_error_treated_as_existing statErrorWorld statErrorWorld rfl rfl⟩

/-- C2: the listing loop produces no output for a section exactly when both
its `name` and `email` keys are empty or absent; an absent key is read as
the empty string and never causes an error. -/
theorem listing_skips_iff_both_empty (s : IniSection) (rest : List IniSection) :
    (listBlocks (s :: rest) = listBlocks rest ↔
      (s.getKey "name" = "" ∧ s.getKey "email" = "")) ∧
    (∀ key : String, (∀ p ∈ s.keys, p.1 ≠ key) → s.getKey key = "") := by
  constructor
  · constructor
    · intro heq
      by_cases hc : (s.getKey "name" == "" && s.getKey "email" == "") = true
      · simpa using hc
      · exfalso
        have hblocks : listBlocks (s :: rest) =
            identityBlock s ++ "\n" ++ listBlocks rest := by
          simp [listBlocks, hc]
        rw [hblocks] at heq
        have hlen := congrArg String.length heq
        rw [String.length_append, String.length_append] at hlen
        have hone : ("\n" : String).length = 1 := rfl
        rw [hone] at hlen
        omega
    · intro hboth
      simp [listBlocks, hboth.1, hboth.2]
  · intro key h
    exact lookupKey_eq_empty_of_not_mem s.keys key h

/-- C2 witness: the theorem applied to a keyless section, which is skipped. -/
theorem listing_skips_iff_both_empty_witness :
    listBlocks (⟨"empty", []⟩ :: []) = listBlocks [] :=
  (listing_skips_iff_both_empty ⟨"empty", []⟩ []).1.mpr ⟨rfl, rfl⟩

/-- Bootstrap on a fresh world whose gitconfig load fails: the returned
error is the gitconfig wrap and the filesystem keeps no store file. -/
lemma initializeAzGitConfig_gitconfig_error (w : World) (e : Err)
    (h1 : w.storeFile = FileState.absent)
    (h2 : loadIni gitConfigPath w.gitconfig = Except.error e)
    (hmk : w.mkdirFails = false) :
    ∃ w' : World,
      initializeAzGitConfig w = (w', some (Err.wrap "failed to read ~/.gitconfig" e)) ∧
      w'.storeFile = w.storeFile := by
  unfold initializeAzGitConfig ensureAzGitFolderExists fetchDefaultGitIdentity
  cases hd : w.storeDir <;>
    simp [h1, h2, hmk, hd, statFile, statDir, isNotExist]

/-- C5: when `~/.gitconfig` is missing or malformed, bootstrap on a fresh
world fails with an error wrapping the underlying load failure and creates
no store file; more generally, any bootstrap failure with a working save
step leaves the store file exactly as it was. -/
theorem bootstrap_gitconfig_failure_no_store (w : World)
    (h1 : w.storeFile = FileState.absent)
    (h2 : w.gitconfig = FileState.absent ∨ w.gitconfig = FileState.malformed)
    (hmk : w.mkdirFails = false) :
    (∃ (w' : World) (e : Err),
      initializeAzGitConfig w = (w', some (Err.wrap "failed to read ~/.gitconfig" e)) ∧
      w'.storeFile = FileState.absent) ∧
    (∀ (v v' : World) (e : Err), v.saveFails = false →
      initializeAzGitConfig v = (v', some e) → v'.storeFile = v.storeFile) := by
  constructor
  · rcases h2 with h2 | h2
    · obtain ⟨w', hw, hsf⟩ := initializeAzGitConfig_gitconfig_error w
        (Err.notExist gitConfigPath) h1 (by rw [h2]; rfl) hmk
      exact ⟨w', Err.notExist gitConfigPath, hw, by rw [hsf, h1]⟩
    · obtain ⟨w', hw, hsf⟩ := initializeAzGitConfig_gitconfig_error w
        (Err.parseFail gitConfigPath) h1 (by rw [h2]; rfl) hmk
      exact ⟨w', Err.parseFail gitConfigPath, hw, by rw [hsf, h1]⟩
  · intro v v' e hsv hinit
    obtain ⟨sf, sd, gc, mkf, sv⟩ := v
    cases sf <;> cases sd <;> cases gc <;> cases mkf <;>
      simp_all [initializeAzGitConfig, ensureAzGitFolderExists, fetchDefaultGitIdentity,
        loadIni, statFile, statDir, isNotExist] <;>
      (obtain ⟨rfl, rfl⟩ := hinit; rfl)

/-- A first-run world with no `~/.gitconfig` at all. -/
def noGitconfigWorld : World where
  storeFile := FileState.absent
  storeDir := DirState.present
  gitconfig := FileState.absent
  mkdirFails := false
  saveFails := false

/-- C5 witness: the theorem at a fresh world with a missing gitconfig. -/
theorem bootstrap_gitconfig_failure_no_store_witness :
    noGitconfigWorld.storeFile = FileState.absent ∧
    (noGitconfigWorld.gitconfig = FileState.absent ∨
      noGitconfigWorld.gitconfig = FileState.malformed) ∧
    noGitconfigWorld.mkdirFails = false ∧
    ((∃ (w' : World) (e : Err),
      initializeAzGitConfig noGitconfigWorld =
        (w', some (Err.wrap "failed to read ~/.gitconfig" e)) ∧
      w'.storeFile = FileState.absent) ∧
    (∀ (v v' : World) (e : Err), v.saveFails = false →
      initializeAzGitConfig v = (v', some e) → v'.storeFile = v.storeFile)) :=
  ⟨rfl, Or.inl rfl, rfl,
    bootstrap_gitconfig_failure_no_store noGitconfigWorld rfl (Or.inl rfl) rfl⟩

/-- C6: a displayed section's block is a blank line, the header naming the
section, `Name:` and `Email:` lines always, a `Signing Key:` line only when
non-empty, a `GPG Sign:` line only when non-empty; and on the Alice-only
store, `list` prints the header and exactly that one block. -/
theorem listing_block_format (v n e k p : String) (h : ¬(n = "" ∧ e = "")) :
    (∀ rest : List IniSection,
      listBlocks (⟨v, [("name", n), ("email", e), ("signingkey", k), ("gpgsign", p)]⟩ :: rest) =
        ("\nIdentity [" ++ v ++ "]:\n" ++ ("\tName: " ++ n ++ "\n") ++
          ("\tEmail: " ++ e ++ "\n") ++
          (if k = "" then "" else "\tSigning Key: " ++ k ++ "\n") ++
          (if p = "" then "" else "\tGPG Sign: " ++ p ++ "\n")) ++ "\n" ++
          listBlocks rest) ∧
    listIdentities scenarioWorld =
      Except.ok "List of Identities:\n\nIdentity [default]:\n\tName: Alice\n\tEmail: alice@example.com\n\n" := by
  constructor
  · intro rest
    rcases not_and_or.mp h with hne | hne <;>
      by_cases hk : k = "" <;> by_cases hp : p = "" <;>
        simp [listBlocks, identityBlock, IniSection.getKey, lookupKey, hne, hk, hp,
          String.append_assoc, -String.reduceAppend]
  · rfl

/-- C6 witness: the theorem at the Alice scenario values. -/
theorem listing_block_format_witness :
    ¬(("Alice" : String) = "" ∧ ("alice@example.com" : String) = "") ∧
    listIdentities scenarioWorld =
      Except.ok "List of Identities:\n\nIdentity [default]:\n\tName: Alice\n\tEmail: alice@example.com\n\n" :=
  ⟨by simp, (listing_block_format "default" "Alice" "alice@example.com" "" ""
    (by simp)).2⟩

/-- C7: the listing iterates all sections of the store in declaration order
— its output is the in-order concatenation of the blocks of the displayed
sections — and the display filter ignores the section's name, so the
library's unnamed global section gets the same emptiness rule and no
special case. -/
theorem listing_iterates_in_declaration_order (cfg : IniFile) :
    listBlocks cfg.sections =
      String.join ((cfg.sections.filter displayedSection).map
        (fun s => identityBlock s ++ "\n")) ∧
    (∀ (n1 n2 : String) (kvs : List (String × String)),
      displayedSection ⟨n1, kvs⟩ = displayedSection ⟨n2, kvs⟩) := by
  constructor
  · obtain ⟨l⟩ := cfg
    induction l with
    | nil => rfl
    | cons s rest ih =>
      cases hb : (s.getKey "name" == "" && s.getKey "email" == "")
      case false =>
        have hd : displayedSection s = true := by
          simp [displayedSection, hb]
        simp [listBlocks, hb, List.filter_cons, hd, String_join_cons]
        rw [ih]
      case true =>
        have hd : displayedSection s = false := by
          simp [displayedSection, hb]
        simp [listBlocks, hb, List.filter_cons, hd]
        exact ih
  · intro n1 n2 kvs
    rfl

/-- C7 witness: the theorem at the Alice store, whose empty global section
is filtered and whose one displayed block appears. -/
theorem listing_iterates_in_declaration_order_witness :
    listBlocks scenarioStore.sections =
      String.join ((scenarioStore.sections.filter displayedSection).map
        (fun s => identityBlock s ++ "\n")) :=
  (listing_iterates_in_declaration_order scenarioStore).1

/-- C8 counterexample: the `list` command does not propagate the load
failure as-is; on a malformed store it returns the failure wrapped in
`failed to read azgit config` instead of the parse failure itself. -/
theorem list_error_not_propagated_as_is :
    loadIni getAzgitConfigPath malformedStoreWorld.storeFile =
      Except.error (Err.parseFail getAzgitConfigPath) ∧
    listIdentities malformedStoreWorld ≠
      Except.error (Err.parseFail getAzgitConfigPath) ∧
    listIdentities malformedStoreWorld =
      Except.error (Err.wrap "failed to read azgit config"
        (Err.parseFail getAzgitConfigPath)) := by
  refine ⟨rfl, ?_, rfl⟩
  intro hcontra
  simp [listIdentities, loadIni, malformedStoreWorld] at hcontra

/-- C8 amended: the `list` command does not bootstrap — it loads the store
directly from the fixed location and formats whatever it read — and when
the load fails it propagates the failure wrapped with the context message
`failed to read azgit config`. -/
theorem list_error_wrapped (w : World) (e : Err)
    (h : loadIni getAzgitConfigPath w.storeFile = Except.error e) :
    listIdentities w = Except.error (Err.wrap "failed to read azgit config" e) ∧
    (∀ cfg : IniFile, listIdentities { w with storeFile := FileState.iniData cfg } =
      Except.ok (listOutput cfg)) := by
  constructor
  · unfold listIdentities
    rw [h]
  · intro cfg
    rfl

/-- C8 witness: the amended theorem at the malformed-store world. -/
theorem list_error_wrapped_witness :
    loadIni getAzgitConfigPath malformedStoreWorld.storeFile =
      Except.error (Err.parseFail getAzgitConfigPath) ∧
    listIdentities malformedStoreWorld =
      Except.error (Err.wrap "failed to read azgit config"
        (Err.parseFail getAzgitConfigPath)) :=
  ⟨rfl, (list_error_wrapped malformedStoreWorld
    (Err.parseFail getAzgitConfigPath) rfl).1⟩

/-- A world whose store is the empty ini file of `ini.Empty()`. -/
def emptyStoreWorld : World where
  storeFile := FileState.iniData IniFile.empty
  storeDir := DirState.present
  gitconfig := FileState.absent
  mkdirFails := false
  saveFails := false

/-- C10: whenever loading the store succeeds, `list` prints the
`List of Identities:` line before any blocks, and when no section is
displayable that header line is the entire output. -/
theorem list_prints_header_line (w : World) (cfg : IniFile)
    (h : loadIni getAzgitConfigPath w.storeFile = Except.ok cfg) :
    listIdentities w = Except.ok (listOutput cfg) ∧
    (∃ blocks : String, listOutput cfg = "List of Identities:\n" ++ blocks) ∧
    ((∀ s ∈ cfg.sections, s.getKey "name" = "" ∧ s.getKey "email" = "") →
      listOutput cfg = "List of Identities:\n") := by
  refine ⟨?_, ⟨listBlocks cfg.sections, rfl⟩, ?_⟩
  · unfold listIdentities
    rw [h]
  · intro hall
    unfold listOutput
    rw [listBlocks_eq_empty cfg.sections hall, String.append_empty]

/-- C10 witness: the theorem at a store holding only the empty global
section, where the header is the whole output. -/
theorem list_prints_header_line_witness :
    loadIni getAzgitConfigPath emptyStoreWorld.storeFile = Except.ok IniFile.empty ∧
    listIdentities emptyStoreWorld = Except.ok "List of Identities:\n" := by
  refine ⟨rfl, ?_⟩
  have h := list_prints_header_line emptyStoreWorld IniFile.empty rfl
  rw [h.1, h.2.2 ?_]
  intro s hs
  simp [IniFile.empty] at hs
  subst hs
  exact ⟨rfl, rfl⟩

end AzGit
